import Mathlib

/-!
Verification development for the localLLM repository
(src/utils/indexer.py and src/utils/retriever.py).

The Python modules are shallowly embedded below. External collaborators
(the sentence-transformer encoder, chardet, the generative judge model,
the OS filesystem) are passed in as explicit function parameters; the
logic translated from the source is the code of the two files. A Python
call that can raise is modelled as `Except String α`, with the error
value standing for the raised exception.
-/

set_option maxHeartbeats 1000000

namespace LocalLLM

/-- Outcome of a Python call: a normal return, or a raised exception
(carrying its rendered message). -/
abbrev PyRes (α : Type) := Except String α

/-! ## Indexer — src/utils/indexer.py -/

/-- `create_filenames_mapping` (indexer.py lines 28-44): iterates
`enumerate(filenames)` and stores `filenames_mapping[idx] = doc_file`.
The resulting dict is modelled as the association list of
(index, filename) pairs in insertion order, i.e. `filenames.enum`. -/
def create_filenames_mapping (filenames : List String) : List (Nat × String) :=
  filenames.enum

/-- `read_file_with_fallback` (indexer.py lines 47-71).
Parameters model the collaborators:
* `readBytes`   — `open(file_path, 'rb').read()`; an OS-level failure
  (missing file, permission) is an `.error` and propagates;
* `detect`      — `chardet.detect(raw_data)['encoding']` (may be `None`);
* `decodeWith`  — reading the file as text with the detected encoding;
  `none` stands for a raised `UnicodeDecodeError`;
* `latin1`      — decoding with the fixed fallback encoding `latin1`,
  which is total: every byte sequence decodes. -/
def read_file_with_fallback
    (readBytes : String → PyRes (List Nat))
    (detect : List Nat → Option String)
    (decodeWith : Option String → List Nat → Option String)
    (latin1 : List Nat → String)
    (file_path : String) : PyRes String :=
  match readBytes file_path with
  | .error e => .error e
  | .ok raw =>
    match decodeWith (detect raw) raw with
    | some s => .ok s
    | none => .ok (latin1 raw)

/-- The document-loading loop of `index_documents` (indexer.py lines
94-105): for each `filename` in `os.listdir(folder_path)`, try
`read_file_with_fallback(os.path.join(folder_path, filename))`; on
success append the content to `docs` and the filename to `filenames`;
on any exception log and skip the file. `readFile` stands for the
whole `read_file_with_fallback` call on the joined path. Returns
(docs, filenames). -/
def load_docs (readFile : String → PyRes String) (folder_path : String) :
    List String → List String × List String
  | [] => ([], [])
  | filename :: rest =>
    match readFile (folder_path ++ "/" ++ filename) with
    | .ok content =>
      let r := load_docs readFile folder_path rest
      (content :: r.1, filename :: r.2)
    | .error _ => load_docs readFile folder_path rest

/-- The build phase of `index_documents` (indexer.py lines 94-131):
load the documents, batch-embed them (`model.encode(docs)` yields one
vector per document in document order, modelled by mapping `enc`), add
the embeddings to a fresh `IndexFlatL2` (modelled as the list of
vectors in insertion order, so ordinal = list position), and build the
filenames mapping. Returns (index contents, filenames mapping). -/
def index_documents_build (readFile : String → PyRes String) (enc : String → List Int)
    (folder_path : String) (listing : List String) :
    List (List Int) × List (Nat × String) :=
  let dl := load_docs readFile folder_path listing
  (dl.1.map enc, create_filenames_mapping dl.2)

/-- The artifacts written by the persistence phase of `index_documents`
(indexer.py lines 123-136): `indexWritten` is the path passed to
`faiss.write_index`, if that call is reached; `mappingWritten` is the
path and content handed to `json.dump`, if that write is reached. -/
structure PersistResult where
  indexWritten : Option String
  mappingWritten : Option (String × List (Nat × String))
  deriving Repr, DecidableEq

/-- The persistence phase of `index_documents` (indexer.py lines
123-136), translated one branch at a time:
`if index_path:` (falsy for `None` and for the empty string) — then
`if os.path.isdir(index_path): faiss.write_index(index, join(index_path,
'index.faiss'))` — and then, still inside the outer `if` but OUTSIDE the
`isdir` branch, the filenames mapping is written to
`join(index_path, "faiss_index_file_mapping.json")`.
`isdir` models `os.path.isdir`. -/
def index_documents_persist (isdir : String → Bool) (index_path : Option String)
    (filenames : List String) : PersistResult :=
  match index_path with
  | none => ⟨none, none⟩
  | some p =>
    if p = "" then ⟨none, none⟩
    else
      { indexWritten := if isdir p then some (p ++ "/" ++ "index.faiss") else none
        mappingWritten :=
          some (p ++ "/" ++ "faiss_index_file_mapping.json", create_filenames_mapping filenames) }

/-! ## FAISS flat L2 search (external collaborator, exact semantics)

`faiss.IndexFlatL2` performs exact nearest-neighbour search by squared
L2 distance; on ties the vector added earlier (smaller ordinal) wins,
and when fewer than `k` vectors are stored the result is padded with
ordinal `-1`. Embedding vectors are modelled over `Int`. -/

/-- Squared L2 distance between two vectors. -/
def sqDist (a b : List Int) : Int :=
  ((a.zip b).map (fun p => (p.1 - p.2) ^ 2)).sum

/-- One linear scan keeping the candidate with the strictly smallest
squared distance; on ties the earlier candidate is kept. -/
def argminFrom (q : List Int) (best : Option (Nat × List Int)) :
    List (Nat × List Int) → Option (Nat × List Int)
  | [] => best
  | c :: rest =>
    match best with
    | none => argminFrom q (some c) rest
    | some b =>
      if sqDist q c.2 < sqDist q b.2 then argminFrom q (some c) rest
      else argminFrom q (some b) rest

/-- Select the `k` nearest stored vectors, closest first, each ordinal
reported once. -/
def selectK (q : List Int) : Nat → List (Nat × List Int) → List Int
  | 0, _ => []
  | k + 1, cands =>
    match argminFrom q none cands with
    | none => []
    | some b => (b.1 : Int) :: selectK q k (cands.filter (fun c => c.1 ≠ b.1))

/-- `index.search(q, k)` of a flat L2 index holding `xs`: the `k`
nearest ordinals, padded with `-1` when fewer than `k` vectors exist. -/
def faiss_search (xs : List (List Int)) (q : List Int) (k : Nat) : List Int :=
  let res := selectK q k xs.enum
  res ++ List.replicate (k - res.length) (-1)

/-! ## Retriever — src/utils/retriever.py -/

/-- Python `str.strip()` whitespace for the ASCII range: space, tab,
newline, carriage return, vertical tab, form feed. -/
def isPyWhitespace (c : Char) : Bool :=
  c = ' ' || c = '\t' || c = '\n' || c = '\r' || c = '\x0b' || c = '\x0c'

/-- Python `str.strip()`: drop leading and trailing whitespace. -/
def pyStrip (s : String) : String :=
  ⟨((s.data.dropWhile isPyWhitespace).reverse.dropWhile isPyWhitespace).reverse⟩

/-- Python `str.lower()` on one character (ASCII case mapping; the
non-ASCII Unicode case mappings play no role in the comparison against
the ASCII literal used by the source). -/
def pyLowerChar (c : Char) : Char :=
  if 'A' ≤ c ∧ c ≤ 'Z' then Char.ofNat (c.toNat + 32) else c

/-- Python `str.lower()`: lowercase every character. -/
def pyLower (s : String) : String := ⟨s.data.map pyLowerChar⟩

/-- `analyze_chunk_with_llm` (retriever.py lines 19-41): the prompt is
sent to the generative model and the reply is accepted iff
`response.text.strip().lower() == 'yes'`. The model call is an external
collaborator, so the function is parametrised directly by the response
text it returns; the chunk is passed through unchanged. -/
def analyze_chunk_with_llm (response : String) (chunk : List Nat) : Bool × List Nat :=
  (pyLower (pyStrip response) == "yes", chunk)

/-! ### Filesystem model for the retrieval loop -/

/-- A filesystem: an association list from path to file bytes. -/
abbrev FS := List (String × List Nat)

/-- Read a file: the bytes at the first entry for the path, if any. -/
def FS.read : FS → String → Option (List Nat)
  | [], _ => none
  | e :: rest, p => if e.1 = p then some e.2 else FS.read rest p

/-- `os.path.exists`. -/
def FS.pathExists (fs : FS) (p : String) : Bool := (fs.read p).isSome

/-- `os.remove`: drop the entries at the path. -/
def FS.remove : FS → String → FS
  | [], _ => []
  | e :: rest, p => if e.1 = p then FS.remove rest p else e :: FS.remove rest p

/-- `open(p, 'wb').write(b)`: the path now holds exactly `b`. -/
def FS.write (fs : FS) (p : String) (b : List Nat) : FS := (p, b) :: fs.remove p

/-- The extension component of `os.path.splitext(filename)`: the suffix
starting at the last dot, unless every character before that dot is
itself a dot (so ".bashrc" has extension ""). -/
def splitextExt (s : String) : String :=
  match ((List.range s.data.length).filter (fun j => s.data.get? j = some '.')).getLast? with
  | none => ""
  | some j =>
    if (List.range j).any (fun i => s.data.get? i ≠ some '.') then ⟨s.data.drop j⟩ else ""

/-- `filenames_mapping.get(idx, None)`: the FAISS result ordinal is a
(possibly negative) machine integer, the mapping keys are the natural
numbers assigned at build time; lookup compares them as integers. -/
def mapping_get (mapping : List (Nat × String)) (idx : Int) : Option String :=
  (mapping.find? (fun p => (p.1 : Int) == idx)).map Prod.snd

/-- Destination path used by the retrieval loop:
`os.path.join('retrieved_documents', f"{idx}{os.path.splitext(doc_filename)[-1]}")`. -/
def dest_path_of (idx : Int) (doc_filename : String) : String :=
  "retrieved_documents/" ++ toString idx ++ splitextExt doc_filename

/-- State carried through the retrieval loop: the filesystem and the
accumulated `files` result list. -/
structure RetState where
  fs : FS
  files : List String
  deriving Repr, DecidableEq

/-- Result of running loop code that may raise: either a normal state,
or an exception together with the state at the moment of the raise
(Python does not roll back filesystem effects on an exception). -/
inductive StepResult where
  | stepOk : RetState → StepResult
  | stepErr : RetState → String → StepResult
  deriving Repr, DecidableEq

/-- External collaborators of `retrieve_documents` (retriever.py lines
44-138). `judge content query` is the outcome of the
`analyze_chunk_with_llm` call: `.error` if `generate_content` (or
anything else inside it) raises, otherwise the Bool verdict computed by
the accepted-iff-trimmed-lowercased-response-equals-yes rule. -/
structure RetrieverWorld where
  encode : String → PyRes (List Int)
  index : List (List Int)
  loadModel : PyRes Unit
  judge : List Nat → String → PyRes Bool

/-- One iteration of the retrieval loop (retriever.py lines 84-132),
for one search-result ordinal `idx`:
resolve the ordinal through the mapping (`if doc_filename:` — `None`
and the empty string are both falsy → skip); resolve the filename under
`uploaded_documents` and skip if the path does not exist; delete any
pre-existing file at the destination path; read the source bytes;
invoke the relevance judge; on "not relevant" skip without writing; on
"relevant" write the bytes to the destination and append the
destination path to `files`. -/
def process_idx (w : RetrieverWorld) (mapping : List (Nat × String)) (query : String)
    (s : RetState) (idx : Int) : StepResult :=
  match mapping_get mapping idx with
  | none => .stepOk s
  | some doc_filename =>
    if doc_filename = "" then .stepOk s
    else
      let doc_path := "uploaded_documents/" ++ doc_filename
      if s.fs.pathExists doc_path then
        let dest := dest_path_of idx doc_filename
        let fs1 := if s.fs.pathExists dest then s.fs.remove dest else s.fs
        match fs1.read doc_path with
        | none => .stepErr ⟨fs1, s.files⟩ "FileNotFoundError"
        | some content =>
          match w.judge content query with
          | .error e => .stepErr ⟨fs1, s.files⟩ e
          | .ok is_relevant =>
            if is_relevant then
              .stepOk ⟨fs1.write dest content, s.files ++ [dest]⟩
            else
              .stepOk ⟨fs1, s.files⟩
      else .stepOk s

/-- The retrieval loop `for idx in indices[0]` (retriever.py lines
84-132): iterate `process_idx`; an exception aborts the loop carrying
the state reached so far. -/
def run_loop (w : RetrieverWorld) (mapping : List (Nat × String)) (query : String) :
    List Int → RetState → StepResult
  | [], s => .stepOk s
  | idx :: rest, s =>
    match process_idx w mapping query s idx with
    | .stepOk s1 => run_loop w mapping query rest s1
    | .stepErr s1 e => .stepErr s1 e

/-- The body of the `try` block of `retrieve_documents` (retriever.py
lines 66-135): encode the query, search the index, load the judge
model, then run the loop starting from an empty `files` list. (The
`os.makedirs(..., exist_ok=True)` call only creates the output
directory and is invisible in the path→bytes filesystem model.) -/
def retrieve_documents_try (w : RetrieverWorld) (mapping : List (Nat × String))
    (query : String) (k : Nat) (fs0 : FS) : StepResult :=
  match w.encode query with
  | .error e => .stepErr ⟨fs0, []⟩ e
  | .ok qe =>
    let idxs := faiss_search w.index qe k
    match w.loadModel with
    | .error e => .stepErr ⟨fs0, []⟩ e
    | .ok _ => run_loop w mapping query idxs ⟨fs0, []⟩

/-- `retrieve_documents` (retriever.py lines 44-138): the whole flow is
wrapped in `try: ... except Exception: return []`, so an exception from
anywhere inside yields the empty list; filesystem effects performed
before the exception are kept, not rolled back. The returned pair is
(files result list, final filesystem). -/
def retrieve_documents (w : RetrieverWorld) (mapping : List (Nat × String))
    (query : String) (k : Nat) (fs0 : FS) : PyRes (List String × FS) :=
  match retrieve_documents_try w mapping query k fs0 with
  | .stepOk s => .ok (s.files, s.fs)
  | .stepErr s _ => .ok ([], s.fs)

/-- A search-result ordinal fails resolution in the retrieval loop
when the mapping has no entry for it (or a falsy one), or the resolved
filename does not exist under `uploaded_documents`. -/
def idx_unresolvable (mapping : List (Nat × String)) (fs : FS) (idx : Int) : Bool :=
  match mapping_get mapping idx with
  | none => true
  | some fn => fn == "" || !(FS.pathExists fs ("uploaded_documents/" ++ fn))

/-! ## Helper lemmas -/

/-- The two lists produced by the document-loading loop grow in
lockstep: one content entry per kept filename. -/
theorem load_docs_length (readFile : String → PyRes String) (folder_path : String) :
    ∀ l : List String,
      (load_docs readFile folder_path l).1.length = (load_docs readFile folder_path l).2.length := by
  intro l
  induction l with
  | nil => rfl
  | cons filename rest ih =>
    unfold load_docs
    cases readFile (folder_path ++ "/" ++ filename) with
    | ok content => simpa using ih
    | error e => simpa using ih

/-- Every filename kept by the loading loop comes from the listing. -/
theorem load_docs_filenames_subset (readFile : String → PyRes String) (folder_path : String) :
    ∀ l : List String, (load_docs readFile folder_path l).2 ⊆ l := by
  intro l
  induction l with
  | nil =>
    intro x hx
    simp [load_docs] at hx
  | cons filename rest ih =>
    intro x hx
    cases h : readFile (folder_path ++ "/" ++ filename) with
    | ok content =>
      rw [load_docs, h] at hx
      rcases List.mem_cons.mp hx with rfl | hx
      · exact List.mem_cons_self _ _
      · exact List.mem_cons_of_mem _ (ih hx)
    | error e =>
      rw [load_docs, h] at hx
      exact List.mem_cons_of_mem _ (ih hx)

/-- Removing a path does not change what any other path reads. -/
theorem FS.read_remove_of_ne (fs : FS) (p q : String) (h : q ≠ p) :
    FS.read (FS.remove fs p) q = FS.read fs q := by
  induction fs with
  | nil => rfl
  | cons e rest ih =>
    by_cases hp : e.1 = p
    · rw [FS.remove, if_pos hp, ih, FS.read,
        if_neg (fun hh : e.1 = q => h (hh.symm.trans hp))]
    · rw [FS.remove, if_neg hp]
      simp only [FS.read]
      by_cases hq : e.1 = q
      · rw [if_pos hq, if_pos hq]
      · rw [if_neg hq, if_neg hq, ih]

/-- After `os.remove`, the removed path reads as absent. -/
theorem FS.read_remove_self (fs : FS) (p : String) : FS.read (FS.remove fs p) p = none := by
  induction fs with
  | nil => rfl
  | cons e rest ih =>
    by_cases hp : e.1 = p
    · rw [FS.remove, if_pos hp]
      exact ih
    · rw [FS.remove, if_neg hp, FS.read, if_neg hp]
      exact ih

/-- After `os.remove`, the removed path does not exist. -/
theorem FS.pathExists_remove_self (fs : FS) (p : String) :
    FS.pathExists (FS.remove fs p) p = false := by
  unfold FS.pathExists
  rw [FS.read_remove_self]
  rfl

/-- Removing an absent path is a no-op. -/
theorem FS.remove_of_not_exists (fs : FS) (p : String) (h : FS.pathExists fs p = false) :
    FS.remove fs p = fs := by
  induction fs with
  | nil => rfl
  | cons e rest ih =>
    unfold FS.pathExists at *
    by_cases hp : e.1 = p
    · rw [FS.read, if_pos hp] at h
      simp at h
    · rw [FS.read, if_neg hp] at h
      rw [FS.remove, if_neg hp, ih h]

/-- The guarded delete of the retrieval loop ("remove the destination
file if already present") always leaves the filesystem with the
destination removed. -/
theorem FS.remove_if_exists (fs : FS) (p : String) :
    (if FS.pathExists fs p then FS.remove fs p else fs) = FS.remove fs p := by
  cases h : FS.pathExists fs p with
  | true => rw [if_pos rfl]
  | false =>
    rw [if_neg Bool.false_ne_true, FS.remove_of_not_exists fs p h]

/-- A path under `uploaded_documents` is never a path under
`retrieved_documents`. -/
theorem uploaded_ne_retrieved (a b : String) :
    ("uploaded_documents/" ++ a) ≠ ("retrieved_documents/" ++ b) := by
  intro h
  have hd := congrArg (fun s => s.data.head?) h
  simp only [String.data_append] at hd
  have h1 : (("uploaded_documents/" : String).data ++ a.data).head? = some 'u' := rfl
  have h2 : (("retrieved_documents/" : String).data ++ b.data).head? = some 'r' := rfl
  rw [h1, h2] at hd
  exact absurd hd (by decide)

/-- The source-document path of one ordinal is never its destination
path. -/
theorem doc_path_ne_dest (fn : String) (idx : Int) (fn2 : String) :
    ("uploaded_documents/" ++ fn) ≠ dest_path_of idx fn2 := by
  unfold dest_path_of
  rw [String.append_assoc]
  exact uploaded_ne_retrieved fn (toString idx ++ splitextExt fn2)

/-- A negative ordinal (FAISS padding `-1`) never matches a mapping
key. -/
theorem mapping_get_neg (mapping : List (Nat × String)) (idx : Int) (h : idx < 0) :
    mapping_get mapping idx = none := by
  unfold mapping_get
  have hfind : mapping.find? (fun p => (p.1 : Int) == idx) = none := by
    rw [List.find?_eq_none]
    intro x _
    simp only [beq_iff_eq]
    omega
  rw [hfind]
  rfl

/-- Searching an empty flat index yields only the padding ordinal. -/
theorem faiss_search_empty (q : List Int) (k : Nat) :
    faiss_search [] q k = List.replicate k (-1) := by
  cases k <;> rfl

/-- An unresolvable ordinal is skipped: the loop iteration changes
nothing. -/
theorem process_idx_skip (w : RetrieverWorld) (mapping : List (Nat × String)) (query : String)
    (s : RetState) (idx : Int) (h : idx_unresolvable mapping s.fs idx = true) :
    process_idx w mapping query s idx = .stepOk s := by
  unfold idx_unresolvable at h
  unfold process_idx
  cases hm : mapping_get mapping idx with
  | none => simp only [hm]
  | some fn =>
    rw [hm] at h
    simp only [hm]
    by_cases hfn : fn = ""
    · rw [if_pos hfn]
    · rw [if_neg hfn]
      have hpe : FS.pathExists s.fs ("uploaded_documents/" ++ fn) = false := by
        simp only [Bool.or_eq_true, beq_iff_eq, hfn, false_or, Bool.not_eq_true'] at h
        exact h
      simp only [hpe, Bool.false_eq_true, if_false]

/-- If every ordinal in the result fails resolution, the loop returns
its input state unchanged. -/
theorem run_loop_skip_all (w : RetrieverWorld) (mapping : List (Nat × String)) (query : String)
    (idxs : List Int) (s : RetState)
    (h : ∀ idx ∈ idxs, idx_unresolvable mapping s.fs idx = true) :
    run_loop w mapping query idxs s = .stepOk s := by
  induction idxs with
  | nil => rfl
  | cons i rest ih =>
    rw [run_loop, process_idx_skip w mapping query s i (h i (List.mem_cons_self i rest))]
    exact ih (fun idx hx => h idx (List.mem_cons_of_mem i hx))

/-- Unfolding lemma for one loop iteration. -/
theorem run_loop_cons (w : RetrieverWorld) (mapping : List (Nat × String)) (query : String)
    (i : Int) (rest : List Int) (s : RetState) :
    run_loop w mapping query (i :: rest) s =
      match process_idx w mapping query s i with
      | .stepOk s1 => run_loop w mapping query rest s1
      | .stepErr s1 e => .stepErr s1 e := rfl

/-- The retrieval loop splits along list append. -/
theorem run_loop_append (w : RetrieverWorld) (mapping : List (Nat × String)) (query : String)
    (l1 l2 : List Int) (s : RetState) :
    run_loop w mapping query (l1 ++ l2) s =
      match run_loop w mapping query l1 s with
      | .stepOk s1 => run_loop w mapping query l2 s1
      | .stepErr s1 e => .stepErr s1 e := by
  induction l1 generalizing s with
  | nil => rfl
  | cons i rest ih =>
    rw [List.cons_append, run_loop, run_loop]
    cases process_idx w mapping query s i with
    | stepOk s1 => exact ih s1
    | stepErr s1 e => rfl

/-- Squared L2 distances are nonnegative. -/
theorem sqDist_nonneg (a b : List Int) : 0 ≤ sqDist a b := by
  unfold sqDist
  apply List.sum_nonneg
  intro x hx
  simp only [List.mem_map] at hx
  obtain ⟨p, _, rfl⟩ := hx
  exact sq_nonneg _

/-- A vector is at squared distance zero from itself. -/
theorem sqDist_self (a : List Int) : sqDist a a = 0 := by
  induction a with
  | nil => rfl
  | cons x rest ih =>
    unfold sqDist at ih ⊢
    rw [List.zip_cons_cons, List.map_cons, List.sum_cons, ih, sub_self]
    simp

/-- A candidate at distance zero is never displaced by the scan. -/
theorem argminFrom_keep_zero (q : List Int) (b : Nat × List Int) (h : sqDist q b.2 = 0) :
    ∀ cands, argminFrom q (some b) cands = some b := by
  intro cands
  induction cands with
  | nil => rfl
  | cons c rest ih =>
    have hnlt : ¬ (sqDist q c.2 < sqDist q b.2) := by
      rw [h]
      exact not_lt.mpr (sqDist_nonneg q c.2)
    simp only [argminFrom]
    rw [if_neg hnlt]
    exact ih

/-- The scan over an enumerated tail finds the first entry at distance
zero, provided everything before it (and any incumbent) is at nonzero
distance. -/
theorem argminFrom_finds_zero (q : List Int) :
    ∀ (ys : List (List Int)) (n j : Nat) (hj : j < ys.length)
      (best : Option (Nat × List Int)),
      sqDist q (ys.get ⟨j, hj⟩) = 0 →
      (∀ j2 (hj2 : j2 < j), sqDist q (ys.get ⟨j2, Nat.lt_trans hj2 hj⟩) ≠ 0) →
      (∀ b, best = some b → sqDist q b.2 ≠ 0) →
      argminFrom q best (ys.enumFrom n) = some (n + j, ys.get ⟨j, hj⟩) := by
  intro ys
  induction ys with
  | nil =>
    intro n j hj
    exact absurd hj (Nat.not_lt_zero j)
  | cons y rest ih =>
    intro n j hj best h0 hpre hbest
    rw [List.enumFrom_cons]
    cases j with
    | zero =>
      cases best with
      | none =>
        simp only [argminFrom, Nat.add_zero]
        exact argminFrom_keep_zero q (n, y) h0 _
      | some b =>
        have hbpos : 0 < sqDist q b.2 :=
          lt_of_le_of_ne (sqDist_nonneg q b.2) (Ne.symm (hbest b rfl))
        simp only [argminFrom, Nat.add_zero]
        rw [if_pos (show sqDist q y < sqDist q b.2 from lt_of_le_of_lt (le_of_eq h0) hbpos)]
        exact argminFrom_keep_zero q (n, y) h0 _
    | succ j2 =>
      have hy : sqDist q y ≠ 0 := hpre 0 (Nat.succ_pos j2)
      have hpre2 : ∀ j3 (hj3 : j3 < j2),
          sqDist q (rest.get ⟨j3, Nat.lt_trans hj3 (Nat.lt_of_succ_lt_succ hj)⟩) ≠ 0 :=
        fun j3 hj3 => hpre (j3 + 1) (Nat.succ_lt_succ hj3)
      have harith : n + (j2 + 1) = (n + 1) + j2 := by omega
      cases best with
      | none =>
        simp only [argminFrom]
        rw [harith]
        exact ih (n + 1) j2 (Nat.lt_of_succ_lt_succ hj) (some (n, y)) h0 hpre2
          (fun b2 hb2 => by cases hb2; exact hy)
      | some b =>
        simp only [argminFrom]
        by_cases hlt : sqDist q y < sqDist q b.2
        · rw [if_pos hlt, harith]
          exact ih (n + 1) j2 (Nat.lt_of_succ_lt_succ hj) (some (n, y)) h0 hpre2
            (fun b2 hb2 => by cases hb2; exact hy)
        · rw [if_neg hlt, harith]
          exact ih (n + 1) j2 (Nat.lt_of_succ_lt_succ hj) (some b) h0 hpre2 hbest

/-- Rank 0 of a self-search: the first ordinal whose stored vector is
at distance zero from the query — the document's own ordinal when no
earlier vector ties with it. -/
theorem faiss_search_head (xs : List (List Int)) (i : Nat) (hi : i < xs.length) (k : Nat)
    (hk : 0 < k)
    (hdist : ∀ j (hj : j < i), sqDist (xs.get ⟨i, hi⟩) (xs.get ⟨j, Nat.lt_trans hj hi⟩) ≠ 0) :
    (faiss_search xs (xs.get ⟨i, hi⟩) k).head? = some (i : Int) := by
  have hargmin : argminFrom (xs.get ⟨i, hi⟩) none xs.enum = some (i, xs.get ⟨i, hi⟩) := by
    have h := argminFrom_finds_zero (xs.get ⟨i, hi⟩) xs 0 i hi none
      (sqDist_self _) hdist (fun b hb => by cases hb)
    rw [List.enum_eq_enumFrom]
    simpa using h
  cases k with
  | zero => exact absurd hk (by omega)
  | succ k2 =>
    simp only [faiss_search, selectK, hargmin, List.cons_append, List.head?_cons]

/-! ## Claims -/

/-- C2 (confirmed). Relevance gating exactness: `analyze_chunk_with_llm`
accepts a document iff the judge response, stripped of surrounding
whitespace and lowercased, is exactly "yes"; it also passes the chunk
through unchanged. In particular "Yes", " yes ", "YES" are accepted and
"no", "", "yes please" are rejected. -/
theorem C2_relevance_gating :
    (∀ (r : String) (c : List Nat),
        ((analyze_chunk_with_llm r c).1 = true ↔ pyLower (pyStrip r) = "yes")
        ∧ (analyze_chunk_with_llm r c).2 = c)
    ∧ (analyze_chunk_with_llm "Yes" []).1 = true
    ∧ (analyze_chunk_with_llm " yes " []).1 = true
    ∧ (analyze_chunk_with_llm "YES" []).1 = true
    ∧ (analyze_chunk_with_llm "no" []).1 = false
    ∧ (analyze_chunk_with_llm "" []).1 = false
    ∧ (analyze_chunk_with_llm "yes please" []).1 = false := by
  refine ⟨fun r c => ⟨?_, rfl⟩, ?_, ?_, ?_, ?_, ?_, ?_⟩
  · simp [analyze_chunk_with_llm]
  all_goals decide

/-- C3 (code_bug). With a non-directory `index_path` (the documented
use: "the path where the index should be saved, including filename"),
`faiss.write_index` is never reached — it sits inside the
`os.path.isdir` branch with no else — yet the mapping write is still
attempted next to it, so the two artifacts are not written together. -/
theorem C3_persistence_divergence :
    (index_documents_persist (fun _ => false) (some "index.faiss") ["a.txt"]).indexWritten = none
    ∧ (index_documents_persist (fun _ => false) (some "index.faiss") ["a.txt"]).mappingWritten
        = some ("index.faiss" ++ "/" ++ "faiss_index_file_mapping.json", [(0, "a.txt")]) := by
  constructor <;> rfl

/-- C4 (confirmed). Retrieval never raises: whatever the collaborators
do, `retrieve_documents` returns a normal value; and whenever the body
of its `try` block raises, the caught result is the empty list paired
with the filesystem as it stood at the raise. -/
theorem C4_retrieval_never_raises (w : RetrieverWorld) (mapping : List (Nat × String))
    (query : String) (k : Nat) (fs0 : FS) :
    (∃ out, retrieve_documents w mapping query k fs0 = .ok out)
    ∧ ∀ s e, retrieve_documents_try w mapping query k fs0 = .stepErr s e →
        retrieve_documents w mapping query k fs0 = .ok ([], s.fs) := by
  unfold retrieve_documents
  cases h : retrieve_documents_try w mapping query k fs0 with
  | stepOk s =>
    refine ⟨⟨_, rfl⟩, fun s' e' hse => ?_⟩
    cases hse
  | stepErr s e =>
    refine ⟨⟨_, rfl⟩, fun s' e' hse => ?_⟩
    cases hse
    rfl

/-- Witness for C4: a judge world whose query encoder raises; the
caught result is the empty list with the filesystem untouched. -/
theorem C4_witness :
    retrieve_documents ⟨fun _ => .error "boom", [], .ok (), fun _ _ => .ok true⟩ [] "q" 3 []
      = .ok ([], []) :=
  (C4_retrieval_never_raises ⟨fun _ => .error "boom", [], .ok (), fun _ _ => .ok true⟩
    [] "q" 3 []).2 ⟨[], []⟩ "boom" rfl

/-- C5 (confirmed). Mapping/index key-set equality: after a build over
N successfully-read documents the mapping keys are exactly
`0, …, N-1` in order, where N is the number of vectors in the index. -/
theorem C5_mapping_key_set (readFile : String → PyRes String) (enc : String → List Int)
    (folder_path : String) (listing : List String) :
    ((index_documents_build readFile enc folder_path listing).2.map Prod.fst)
      = List.range (index_documents_build readFile enc folder_path listing).1.length := by
  unfold index_documents_build create_filenames_mapping
  simp [List.enum_map_fst, load_docs_length readFile folder_path listing]

/-- C6 (confirmed). Encoding-fallback safety: when the raw bytes are
read but the auto-detected encoding fails to decode them
(`UnicodeDecodeError`), the function returns the latin1 decoding — a
string, no exception — while an OS-level read failure propagates
unchanged to the caller. -/
theorem C6_encoding_fallback (readBytes : String → PyRes (List Nat))
    (detect : List Nat → Option String)
    (decodeWith : Option String → List Nat → Option String)
    (latin1 : List Nat → String) (fp : String) (raw : List Nat) (e : String) :
    (readBytes fp = .ok raw → decodeWith (detect raw) raw = none →
      read_file_with_fallback readBytes detect decodeWith latin1 fp = .ok (latin1 raw))
    ∧ (readBytes fp = .error e →
      read_file_with_fallback readBytes detect decodeWith latin1 fp = .error e) := by
  constructor
  · intro h1 h2
    unfold read_file_with_fallback
    simp only [h1, h2]
  · intro h1
    unfold read_file_with_fallback
    simp only [h1]

/-- Witness for C6: a byte that the detected encoding rejects decodes
via the latin1 fallback; a missing file propagates its error. -/
theorem C6_witness :
    read_file_with_fallback (fun _ => .ok [255]) (fun _ => some "ascii") (fun _ _ => none)
      (fun _ => "x") "f.txt" = .ok "x"
    ∧ read_file_with_fallback (fun p => .error ("missing " ++ p)) (fun _ => some "ascii")
      (fun _ _ => none) (fun _ => "x") "g.txt" = .error ("missing " ++ "g.txt") :=
  ⟨(C6_encoding_fallback (fun _ => .ok [255]) (fun _ => some "ascii") (fun _ _ => none)
      (fun _ => "x") "f.txt" [255] "unused").1 rfl rfl,
   (C6_encoding_fallback (fun p => .error ("missing " ++ p)) (fun _ => some "ascii")
      (fun _ _ => none) (fun _ => "x") "g.txt" [] ("missing " ++ "g.txt")).2 rfl⟩

/-- C8 (confirmed). Per-file fail-soft: a file whose read raises is
skipped — the run over the other files is unaffected, as if the file
were absent from the listing — and (when the name occurs once in the
listing) it appears nowhere among the mapping values. -/
theorem C8_per_file_fail_soft (readFile : String → PyRes String) (folder_path f e : String)
    (l1 l2 : List String)
    (hf : readFile (folder_path ++ "/" ++ f) = .error e) :
    load_docs readFile folder_path (l1 ++ f :: l2) = load_docs readFile folder_path (l1 ++ l2)
    ∧ (f ∉ l1 → f ∉ l2 →
        f ∉ (create_filenames_mapping
              (load_docs readFile folder_path (l1 ++ f :: l2)).2).map Prod.snd) := by
  have hskip : load_docs readFile folder_path (l1 ++ f :: l2)
      = load_docs readFile folder_path (l1 ++ l2) := by
    induction l1 with
    | nil => simp only [List.nil_append, load_docs, hf]
    | cons g rest ih =>
      have ih2 : load_docs readFile folder_path (rest.append (f :: l2))
          = load_docs readFile folder_path (rest.append l2) := ih
      simp only [List.cons_append, load_docs]
      rw [ih2]
  refine ⟨hskip, fun h1 h2 => ?_⟩
  rw [hskip]
  unfold create_filenames_mapping
  rw [List.enum_map_snd]
  intro hmem
  have hin := load_docs_filenames_subset readFile folder_path (l1 ++ l2) hmem
  rcases List.mem_append.mp hin with h | h
  · exact h1 h
  · exact h2 h

/-- Witness for C8: with listing ["a", "bad", "b"] and a read that
raises exactly on "docs/bad", the loop keeps only "a" and "b". -/
theorem C8_witness :
    load_docs (fun p => if p = "docs" ++ "/" ++ "bad" then .error "E" else .ok "text") "docs"
        (["a"] ++ "bad" :: ["b"])
      = load_docs (fun p => if p = "docs" ++ "/" ++ "bad" then .error "E" else .ok "text") "docs"
        (["a"] ++ ["b"])
    ∧ "bad" ∉ (create_filenames_mapping
        (load_docs (fun p => if p = "docs" ++ "/" ++ "bad" then .error "E" else .ok "text")
          "docs" (["a"] ++ "bad" :: ["b"])).2).map Prod.snd := by
  have h := C8_per_file_fail_soft
      (fun p => if p = "docs" ++ "/" ++ "bad" then .error "E" else .ok "text")
      "docs" "bad" "E" ["a"] ["b"] (by simp)
  exact ⟨h.1, h.2 (by decide) (by decide)⟩

/-- C9 (confirmed). Frame effect of a rejected candidate: when a
search-result ordinal resolves to an existing source file, the loop
iteration first deletes any pre-existing file at the destination path,
then consults the judge; if the judge rejects, the iteration ends with
the destination absent from the filesystem, nothing rewritten there,
and the result list unchanged. -/
theorem C9_reject_removes_dest (w : RetrieverWorld) (mapping : List (Nat × String))
    (query : String) (s : RetState) (idx : Int) (doc_filename : String) (content : List Nat)
    (h1 : mapping_get mapping idx = some doc_filename)
    (h2 : doc_filename ≠ "")
    (h3 : FS.read s.fs ("uploaded_documents/" ++ doc_filename) = some content)
    (h4 : w.judge content query = .ok false) :
    process_idx w mapping query s idx
      = .stepOk ⟨FS.remove s.fs (dest_path_of idx doc_filename), s.files⟩
    ∧ FS.pathExists (FS.remove s.fs (dest_path_of idx doc_filename))
        (dest_path_of idx doc_filename) = false := by
  have hex : FS.pathExists s.fs ("uploaded_documents/" ++ doc_filename) = true := by
    unfold FS.pathExists
    rw [h3]
    rfl
  have hne : ("uploaded_documents/" ++ doc_filename) ≠ dest_path_of idx doc_filename :=
    doc_path_ne_dest doc_filename idx doc_filename
  constructor
  · simp only [process_idx, h1, if_neg h2, hex, if_true, FS.remove_if_exists,
      FS.read_remove_of_ne s.fs (dest_path_of idx doc_filename) _ hne, h3, h4,
      Bool.false_eq_true, if_false]
  · exact FS.pathExists_remove_self s.fs (dest_path_of idx doc_filename)

/-- Witness for C9: ordinal 0 resolves to "d.txt", the source file
exists, a stale copy sits at the destination, and the judge says no:
the iteration deletes the stale copy and writes nothing. -/
theorem C9_witness :
    process_idx ⟨fun _ => .ok [0], [[0]], .ok (), fun _ _ => .ok false⟩ [(0, "d.txt")] "q"
        ⟨[("uploaded_documents/d.txt", [7]), ("retrieved_documents/0.txt", [9])], []⟩ 0
      = .stepOk ⟨FS.remove [("uploaded_documents/d.txt", [7]), ("retrieved_documents/0.txt", [9])]
          (dest_path_of 0 "d.txt"), []⟩
    ∧ FS.pathExists
        (FS.remove [("uploaded_documents/d.txt", [7]), ("retrieved_documents/0.txt", [9])]
          (dest_path_of 0 "d.txt"))
        (dest_path_of 0 "d.txt") = false :=
  C9_reject_removes_dest ⟨fun _ => .ok [0], [[0]], .ok (), fun _ _ => .ok false⟩ [(0, "d.txt")] "q"
    ⟨[("uploaded_documents/d.txt", [7]), ("retrieved_documents/0.txt", [9])], []⟩ 0 "d.txt" [7]
    (by decide) (by decide) (by decide) rfl

/-- C7 (confirmed). Empty-result safety: against an index with zero
documents — whose search returns only the padding ordinal `-1` — or
whenever no returned ordinal resolves through the mapping to an
existing source file, `retrieve_documents` returns the empty list
normally and leaves the filesystem untouched; each unresolvable
ordinal is skipped individually. -/
theorem C7_empty_result_safety (w : RetrieverWorld) (mapping : List (Nat × String))
    (query : String) (k : Nat) (fs0 : FS)
    (h : w.index = []
      ∨ ∀ (qe : List Int) (idx : Int), idx ∈ faiss_search w.index qe k →
          idx_unresolvable mapping fs0 idx = true) :
    retrieve_documents w mapping query k fs0 = .ok ([], fs0) := by
  have hall : ∀ (qe : List Int) (idx : Int), idx ∈ faiss_search w.index qe k →
      idx_unresolvable mapping fs0 idx = true := by
    rcases h with h | h
    · intro qe idx hidx
      rw [h, faiss_search_empty] at hidx
      have hneg := List.eq_of_mem_replicate hidx
      subst hneg
      unfold idx_unresolvable
      rw [mapping_get_neg mapping (-1) (by omega)]
    · exact h
  unfold retrieve_documents retrieve_documents_try
  cases he : w.encode query with
  | error e => rfl
  | ok qe =>
    cases hl : w.loadModel with
    | error e => rfl
    | ok u =>
      have hrl := run_loop_skip_all w mapping query (faiss_search w.index qe k) ⟨fs0, []⟩
          (fun idx hx => hall qe idx hx)
      simp only [hrl]

/-- Witness for C7: a zero-document index returns the empty list and
leaves the filesystem untouched. -/
theorem C7_witness :
    retrieve_documents ⟨fun _ => .ok [0], [], .ok (), fun _ _ => .ok true⟩ [(0, "a.txt")] "q" 3 []
      = .ok ([], []) :=
  C7_empty_result_safety ⟨fun _ => .ok [0], [], .ok (), fun _ _ => .ok true⟩ [(0, "a.txt")]
    "q" 3 [] (Or.inl rfl)

/-- C10 (confirmed). Non-atomicity on error: when an exception is
raised partway through the retrieval loop, the caught result is the
empty list while the filesystem is exactly the one at the raise point —
destination files already written or deleted by earlier iterations are
kept, not rolled back, so an empty result does not imply the output
directory is unchanged. -/
theorem C10_non_atomic_on_error (w : RetrieverWorld) (mapping : List (Nat × String))
    (query : String) (k : Nat) (fs0 : FS) (qe : List Int) (pre post : List Int) (i : Int)
    (s s1 : RetState) (e : String)
    (h1 : w.encode query = .ok qe)
    (h2 : w.loadModel = .ok ())
    (h3 : faiss_search w.index qe k = pre ++ i :: post)
    (h4 : run_loop w mapping query pre ⟨fs0, []⟩ = .stepOk s)
    (h5 : process_idx w mapping query s i = .stepErr s1 e) :
    retrieve_documents w mapping query k fs0 = .ok ([], s1.fs) := by
  unfold retrieve_documents retrieve_documents_try
  simp only [h1, h2, h3, run_loop_append, h4, run_loop_cons, h5]

/-- Witness for C10: the first ordinal is judged relevant and its copy
written; judging the second raises; the call returns the empty list
while the copy written for the first ordinal is still on disk (it was
not on disk initially). -/
theorem C10_witness :
    retrieve_documents
        ⟨fun _ => .ok [0], [[0], [1]], .ok (),
          fun c _ => if c = [10] then .ok true else .error "boom"⟩
        [(0, "a.txt"), (1, "b.txt")] "q" 2
        [("uploaded_documents/a.txt", [10]), ("uploaded_documents/b.txt", [20])]
      = .ok ([], [("retrieved_documents/0.txt", [10]),
          ("uploaded_documents/a.txt", [10]), ("uploaded_documents/b.txt", [20])])
    ∧ FS.pathExists [("retrieved_documents/0.txt", [10]),
        ("uploaded_documents/a.txt", [10]), ("uploaded_documents/b.txt", [20])]
        "retrieved_documents/0.txt" = true
    ∧ FS.pathExists [("uploaded_documents/a.txt", [10]), ("uploaded_documents/b.txt", [20])]
        "retrieved_documents/0.txt" = false :=
  ⟨C10_non_atomic_on_error
      ⟨fun _ => .ok [0], [[0], [1]], .ok (),
        fun c _ => if c = [10] then .ok true else .error "boom"⟩
      [(0, "a.txt"), (1, "b.txt")] "q" 2
      [("uploaded_documents/a.txt", [10]), ("uploaded_documents/b.txt", [20])]
      [0] [0] [] 1
      ⟨[("retrieved_documents/0.txt", [10]), ("uploaded_documents/a.txt", [10]),
        ("uploaded_documents/b.txt", [20])], ["retrieved_documents/0.txt"]⟩
      ⟨[("retrieved_documents/0.txt", [10]), ("uploaded_documents/a.txt", [10]),
        ("uploaded_documents/b.txt", [20])], ["retrieved_documents/0.txt"]⟩
      "boom" rfl rfl (by decide) (by decide) (by decide),
    by decide, by decide⟩

/-- Counterexample to C1 as stated: two documents with identical
content embed to identical vectors [0], [0]; the exact self-search for
the document at ordinal 1 (query = its own embedding [0]) returns
ordinal 0 at rank 0 — distance 0, but not ordinal 1, because the flat
L2 scan breaks the tie toward the earlier ordinal. -/
theorem C1_counterexample :
    (index_documents_build (fun _ => .ok "same") (fun _ => [0]) "docs" ["a.txt", "b.txt"]).1
      = [[0], [0]]
    ∧ (faiss_search [[0], [0]] [0] 1).head? = some 0
    ∧ ¬ ((faiss_search [[0], [0]] [0] 1).head? = some 1) :=
  ⟨rfl, rfl, by decide⟩

/-- C1 (corrected). Ordinal consistency: entry `i` of the persisted
mapping is `(i, i-th kept filename)` — the ordinal is the zero-based
position in the filtered document list, which is the insertion
position in the index; and the exact self-search with document `i`'s
own embedding returns ordinal `i` at rank 0 with distance 0 PROVIDED
no earlier document's embedding ties at squared distance 0 (with
duplicates, the earliest tying ordinal is returned instead). -/
theorem C1_ordinal_consistency (readFile : String → PyRes String) (enc : String → List Int)
    (folder_path : String) (listing : List String) (xs : List (List Int))
    (mp : List (Nat × String)) (i k : Nat)
    (hbuild : index_documents_build readFile enc folder_path listing = (xs, mp))
    (hi : i < xs.length) (hk : 0 < k)
    (hdist : ∀ j (hj : j < i), sqDist (xs.get ⟨i, hi⟩) (xs.get ⟨j, Nat.lt_trans hj hi⟩) ≠ 0) :
    mp.get? i = ((load_docs readFile folder_path listing).2.get? i).map (fun fn => (i, fn))
    ∧ (faiss_search xs (xs.get ⟨i, hi⟩) k).head? = some (i : Int)
    ∧ sqDist (xs.get ⟨i, hi⟩) (xs.get ⟨i, hi⟩) = 0 := by
  refine ⟨?_, faiss_search_head xs i hi k hk hdist, sqDist_self _⟩
  have hmp : mp = create_filenames_mapping (load_docs readFile folder_path listing).2 := by
    have h := congrArg Prod.snd hbuild
    simpa [index_documents_build] using h.symm
  rw [hmp]
  unfold create_filenames_mapping
  simp [List.getElem?_enum]

/-- Witness for C1: two documents with distinct contents "a" and "bb",
embedded by length; the self-search for ordinal 1 returns 1. -/
theorem C1_witness :
    ([(0, "a.txt"), (1, "bb.txt")] : List (Nat × String)).get? 1
        = ((load_docs (fun p => if p = "docs" ++ "/" ++ "a.txt" then .ok "a" else .ok "bb")
            "docs" ["a.txt", "bb.txt"]).2.get? 1).map (fun fn => ((1 : Nat), fn))
    ∧ (faiss_search [[1], [2]] (([[1], [2]] : List (List Int)).get ⟨1, by decide⟩) 1).head?
        = some ((1 : Nat) : Int)
    ∧ sqDist (([[1], [2]] : List (List Int)).get ⟨1, by decide⟩)
        (([[1], [2]] : List (List Int)).get ⟨1, by decide⟩) = 0 :=
  C1_ordinal_consistency
    (fun p => if p = "docs" ++ "/" ++ "a.txt" then .ok "a" else .ok "bb")
    (fun s => [(s.length : Int)]) "docs" ["a.txt", "bb.txt"] [[1], [2]]
    [(0, "a.txt"), (1, "bb.txt")] 1 1 (by decide) (by decide) (by decide)
    (by
      intro j hj
      have hj0 : j = 0 := by omega
      subst hj0
      exact (by decide :
        sqDist (([[1], [2]] : List (List Int)).get ⟨1, one_lt_two⟩)
          (([[1], [2]] : List (List Int)).get ⟨0, two_pos⟩) ≠ 0))

end LocalLLM
